import Mathlib

/-!
Shallow embedding of the aniruddhballal/flight-tracker client (TypeScript/React).

Source files embedded:
* src/src/FlightTracker.tsx — the Tracker Controller: searchAirport (Location
  Resolver), fetchFlights (Flight Fetcher: bounding box, normalization,
  on-ground filter, error messages), and the list-to-map conversion that feeds
  FlightMap.
* src/src/FlightMap.tsx — the Map Reconciler: updateMapFlights over the
  identifier-to-FlightMarkerData registry.

Modelling conventions:
* JS numbers are modelled as ℚ (IEEE-754 rounding and NaN at the arithmetic
  level are out of scope; NaN produced by parseFloat is modelled as Option,
  with none standing for NaN).
* JS truthiness on numbers (0 and NaN are falsy) and strings ("" is falsy)
  is modelled explicitly at each use site.
* Leaflet objects are modelled by the registry that owns them: a marker is
  on the map exactly when its identifier has an entry in the
  flightMarkersRef mapping, and a path overlay is on the map exactly when
  that entry's polyline field is some.
-/

namespace FlightTracker

/-! ## JS numeric and string primitives -/

/-- Math.round in JS: round half toward positive infinity, ⌊x + 1/2⌋. -/
def jsRound (q : Rat) : Int := Int.floor (q + 1/2)

/-- The character for a single decimal digit d (0 ≤ d ≤ 9). -/
def digitChar (d : Nat) : Char := Char.ofNat (48 + d)

/-- Whether a character is an ASCII decimal digit. -/
def isDigitCh (c : Char) : Bool := decide ('0' ≤ c) && decide (c ≤ '9')

/-- Numeric value of an ASCII digit character. -/
def digitVal (c : Char) : Nat := c.toNat - 48

/-- Fuel-indexed decimal digit expansion, most significant digit first.
Structural recursion on the fuel keeps it kernel-reducible. -/
def natDigitsAux : Nat → Nat → List Char
  | 0, _ => []
  | fuel + 1, n =>
    if n < 10 then [digitChar n]
    else natDigitsAux fuel (n / 10) ++ [digitChar (n % 10)]

/-- Decimal digit expansion of a natural number, most significant first. -/
def natDigits (n : Nat) : List Char := natDigitsAux (n + 1) n

/-- Decimal string of a natural number, as JS number-to-string produces for
nonnegative integers. -/
def natStr (n : Nat) : String := String.mk (natDigits n)

/-- Decimal string of an integer, as JS template interpolation of an
integer-valued number produces. -/
def intStr (n : Int) : String := if n < 0 then "-" ++ natStr n.natAbs else natStr n.natAbs

/-- Splits a character list into its maximal leading run of ASCII digits and
the remainder. -/
def takeDigits : List Char → List Char × List Char
  | [] => ([], [])
  | c :: cs =>
    if isDigitCh c then
      let p := takeDigits cs
      (c :: p.1, p.2)
    else ([], c :: cs)

/-- Value of a digit run read left to right. -/
def digitsToNat (ds : List Char) : Nat := ds.foldl (fun acc c => acc * 10 + digitVal c) 0

/-- Applies a parsed leading minus sign. -/
def applySign (neg : Bool) (q : Rat) : Rat := if neg then -q else q

/-- Consumes an optional leading sign, returning whether a minus was seen. -/
def splitSign : List Char → Bool × List Char
  | '-' :: r => (true, r)
  | '+' :: r => (false, r)
  | r => (false, r)

/-- Continuation of parseFloat after a nonempty integer part: an optional
fraction introduced by a dot; any other trailing characters are ignored. -/
def afterIntPart (neg : Bool) (ipVal : Nat) (rest : List Char) : Option Rat :=
  match rest with
  | '.' :: cs2 =>
    let fp := takeDigits cs2
    some (applySign neg ((ipVal : Rat) + (digitsToNat fp.1 : Rat) / (10 ^ fp.1.length)))
  | _ => some (applySign neg (ipVal : Rat))

/-- Continuation of parseFloat with an empty integer part: only a dot followed
by at least one digit parses; everything else is NaN (none). -/
def noIntPart (neg : Bool) (rest : List Char) : Option Rat :=
  match rest with
  | '.' :: cs2 =>
    let fp := takeDigits cs2
    if fp.1.isEmpty then none
    else some (applySign neg ((digitsToNat fp.1 : Rat) / (10 ^ fp.1.length)))
  | _ => none

/-- Model of JS parseFloat on a character list: an optional sign, then either
a digit run with an optional fraction or a fraction with a leading dot;
trailing characters are ignored, and a string with no leading numeric prefix
gives none (= NaN). Exponent notation and leading whitespace never occur in
this program's inputs and are not modelled. -/
def jsParseFloatCore (cs : List Char) : Option Rat :=
  if ((takeDigits (splitSign cs).2).1).isEmpty
  then noIntPart (splitSign cs).1 (takeDigits (splitSign cs).2).2
  else afterIntPart (splitSign cs).1 (digitsToNat (takeDigits (splitSign cs).2).1)
    (takeDigits (splitSign cs).2).2

/-- Model of JS parseFloat on a string. -/
def jsParseFloat (s : String) : Option Rat := jsParseFloatCore s.data

/-- Model of the JS idiom `parseFloat(x) || 0`: NaN (none) and 0 both give 0. -/
def jsOrZero (o : Option Rat) : Rat :=
  match o with
  | none => 0
  | some q => if q = 0 then 0 else q

/-! ### Digit-string round-trip lemmas -/

theorem string_data_append (s t : String) : (s ++ t).data = s.data ++ t.data := by
  rcases s with ⟨a⟩
  rcases t with ⟨b⟩
  rfl

theorem natDigitsAux_succ (fuel n : Nat) :
    natDigitsAux (fuel + 1) n =
      if n < 10 then [digitChar n] else natDigitsAux fuel (n / 10) ++ [digitChar (n % 10)] := rfl

theorem natDigitsAux_fuel_eq (n : Nat) :
    ∀ fuel, n < fuel → natDigitsAux fuel n = natDigits n := by
  induction n using Nat.strong_induction_on with
  | _ n ih =>
    intro fuel hf
    cases fuel with
    | zero => omega
    | succ f =>
      by_cases h10 : n < 10
      · simp [natDigitsAux_succ, natDigits, natDigitsAux, h10]
      · have hdiv : n / 10 < n := Nat.div_lt_self (by omega) (by omega)
        have h1 : natDigitsAux f (n / 10) = natDigits (n / 10) := ih (n / 10) hdiv f (by omega)
        have h2 : natDigitsAux n (n / 10) = natDigits (n / 10) := ih (n / 10) hdiv n (by omega)
        rw [natDigitsAux_succ, if_neg h10, natDigits, natDigitsAux_succ, if_neg h10, h1, h2]

/-- Unfolding equation for natDigits, independent of the fuel. -/
theorem natDigits_eq (n : Nat) :
    natDigits n =
      if n < 10 then [digitChar n] else natDigits (n / 10) ++ [digitChar (n % 10)] := by
  by_cases h10 : n < 10
  · rw [natDigits, natDigitsAux_succ, if_pos h10, if_pos h10]
  · have hdiv : n / 10 < n := Nat.div_lt_self (by omega) (by omega)
    rw [natDigits, natDigitsAux_succ, if_neg h10, if_neg h10,
      natDigitsAux_fuel_eq (n / 10) n hdiv]

theorem natDigits_ne_nil (n : Nat) : natDigits n ≠ [] := by
  rw [natDigits_eq]
  by_cases h10 : n < 10 <;> simp [h10]

theorem isDigitCh_digitChar {d : Nat} (hd : d < 10) : isDigitCh (digitChar d) = true := by
  interval_cases d <;> decide

theorem digitVal_digitChar {d : Nat} (hd : d < 10) : digitVal (digitChar d) = d := by
  interval_cases d <;> decide

theorem natDigits_all_digits (n : Nat) : ∀ c ∈ natDigits n, isDigitCh c = true := by
  induction n using Nat.strong_induction_on with
  | _ n ih =>
    rw [natDigits_eq]
    by_cases h10 : n < 10
    · simp only [h10, if_true, List.mem_singleton]
      rintro c rfl
      exact isDigitCh_digitChar h10
    · have hdiv : n / 10 < n := Nat.div_lt_self (by omega) (by omega)
      simp only [h10, if_false, List.mem_append, List.mem_singleton]
      rintro c (hc | rfl)
      · exact ih (n / 10) hdiv c hc
      · exact isDigitCh_digitChar (Nat.mod_lt n (by omega))

theorem takeDigits_append (ds rest : List Char)
    (h1 : ∀ c ∈ ds, isDigitCh c = true)
    (h2 : ∀ c, rest.head? = some c → isDigitCh c = false) :
    takeDigits (ds ++ rest) = (ds, rest) := by
  induction ds with
  | nil =>
    cases rest with
    | nil => rfl
    | cons c cs =>
      have := h2 c rfl
      simp [takeDigits, this]
  | cons c cs ih =>
    have hc : isDigitCh c = true := h1 c (List.mem_cons_self c cs)
    have hcs : ∀ x ∈ cs, isDigitCh x = true := fun x hx => h1 x (List.mem_cons_of_mem c hx)
    simp [takeDigits, hc, ih hcs]

theorem digitsToNat_append_singleton (ds : List Char) (c : Char) :
    digitsToNat (ds ++ [c]) = digitsToNat ds * 10 + digitVal c := by
  simp [digitsToNat, List.foldl_append]

theorem digitsToNat_natDigits (n : Nat) : digitsToNat (natDigits n) = n := by
  induction n using Nat.strong_induction_on with
  | _ n ih =>
    rw [natDigits_eq]
    by_cases h10 : n < 10
    · simp [h10, digitsToNat, digitVal_digitChar h10]
    · have hdiv : n / 10 < n := Nat.div_lt_self (by omega) (by omega)
      simp only [h10, if_false]
      rw [digitsToNat_append_singleton, ih (n / 10) hdiv,
        digitVal_digitChar (Nat.mod_lt n (by omega))]
      omega

theorem splitSign_cons_of_ne (c : Char) (cs : List Char) (h1 : c ≠ '-') (h2 : c ≠ '+') :
    splitSign (c :: cs) = (false, c :: cs) := by
  unfold splitSign
  split
  · rename_i r heq
    injection heq with ha _
    exact absurd ha h1
  · rename_i r heq
    injection heq with ha _
    exact absurd ha h2
  · rfl

theorem afterIntPart_no_dot (neg : Bool) (v : Nat) (rest : List Char)
    (h : ∀ c, rest.head? = some c → c ≠ '.') :
    afterIntPart neg v rest = some (applySign neg (v : Rat)) := by
  cases rest with
  | nil => rfl
  | cons c cs =>
    have hc : c ≠ '.' := h c rfl
    unfold afterIntPart
    split
    · simp_all
    · rfl

/-- Parsing a natural-number decimal string followed by a suffix whose first
character is neither a digit nor a dot recovers the number. -/
theorem jsParseFloatCore_natDigits_append (n : Nat) (rest : List Char)
    (hhead : ∀ c, rest.head? = some c → isDigitCh c = false ∧ c ≠ '.') :
    jsParseFloatCore (natDigits n ++ rest) = some (n : Rat) := by
  have hdigits := natDigits_all_digits n
  obtain ⟨c, cs, hnd⟩ : ∃ c cs, natDigits n = c :: cs := by
    cases h : natDigits n with
    | nil => exact absurd h (natDigits_ne_nil n)
    | cons c cs => exact ⟨c, cs, rfl⟩
  have hc : isDigitCh c = true := hdigits c (by rw [hnd]; exact List.mem_cons_self c cs)
  have hcm : c ≠ '-' := by
    rintro rfl
    exact absurd hc (by decide)
  have hcp : c ≠ '+' := by
    rintro rfl
    exact absurd hc (by decide)
  have hsign : splitSign (natDigits n ++ rest) = (false, natDigits n ++ rest) := by
    rw [hnd, List.cons_append, splitSign_cons_of_ne c _ hcm hcp, ← List.cons_append]
  have htake : takeDigits (natDigits n ++ rest) = (natDigits n, rest) :=
    takeDigits_append _ _ hdigits (fun c' hc' => (hhead c' hc').1)
  have hemp : (natDigits n).isEmpty = false := by
    rw [hnd]
    rfl
  unfold jsParseFloatCore
  rw [hsign]
  dsimp only
  rw [htake]
  dsimp only
  rw [hemp]
  simp only [Bool.false_eq_true, if_false]
  rw [afterIntPart_no_dot _ _ _ (fun c' hc' => (hhead c' hc').2), digitsToNat_natDigits]
  rfl

/-- Parsing an integer decimal string followed by a suffix whose first
character is neither a digit nor a dot recovers the integer; this is the
round trip behind `parseFloat` applied to the formatted heading. -/
theorem jsParseFloat_intStr_append (n : Int) (suffix : String)
    (hhead : ∀ c, suffix.data.head? = some c → isDigitCh c = false ∧ c ≠ '.') :
    jsParseFloat (intStr n ++ suffix) = some (n : Rat) := by
  by_cases hn : n < 0
  · have habs : ((n.natAbs : Nat) : Rat) = -(n : Rat) := by
      have h1 : (n.natAbs : Int) = -n := by omega
      calc ((n.natAbs : Nat) : Rat) = ((n.natAbs : Int) : Rat) := (Int.cast_natCast n.natAbs).symm
        _ = ((-n : Int) : Rat) := by rw [h1]
        _ = -(n : Rat) := by push_cast; ring
    rw [jsParseFloat, intStr, if_pos hn, string_data_append, string_data_append]
    have hdm : ("-" : String).data = ['-'] := rfl
    rw [hdm, natStr]
    have : (String.mk (natDigits n.natAbs)).data = natDigits n.natAbs := rfl
    rw [this, List.cons_append, List.nil_append]
    show jsParseFloatCore ('-' :: (natDigits n.natAbs ++ suffix.data)) = some (n : Rat)
    have hsign : splitSign ('-' :: (natDigits n.natAbs ++ suffix.data)) =
        (true, natDigits n.natAbs ++ suffix.data) := rfl
    have htake : takeDigits (natDigits n.natAbs ++ suffix.data) =
        (natDigits n.natAbs, suffix.data) :=
      takeDigits_append _ _ (natDigits_all_digits _) (fun c' hc' => (hhead c' hc').1)
    have hemp : (natDigits n.natAbs).isEmpty = false := by
      cases h : natDigits n.natAbs with
      | nil => exact absurd h (natDigits_ne_nil _)
      | cons c cs => rfl
    unfold jsParseFloatCore
    rw [hsign]
    dsimp only
    rw [htake]
    dsimp only
    rw [hemp]
    simp only [Bool.false_eq_true, if_false]
    rw [afterIntPart_no_dot _ _ _ (fun c' hc' => (hhead c' hc').2), digitsToNat_natDigits]
    have hap : applySign true ((n.natAbs : Nat) : Rat) = -((n.natAbs : Nat) : Rat) := rfl
    rw [hap, habs, neg_neg]
  · have habs : ((n.natAbs : Nat) : Rat) = (n : Rat) := by
      have h1 : (n.natAbs : Int) = n := by omega
      calc ((n.natAbs : Nat) : Rat) = ((n.natAbs : Int) : Rat) := (Int.cast_natCast n.natAbs).symm
        _ = (n : Rat) := by rw [h1]
    rw [jsParseFloat, intStr, if_neg hn, natStr, string_data_append]
    have : (String.mk (natDigits n.natAbs)).data = natDigits n.natAbs := rfl
    rw [this, jsParseFloatCore_natDigits_append n.natAbs suffix.data hhead, habs]

/-! ## Data model: raw provider records and normalized flights

A raw OpenSky state vector, keeping the positions the code reads:
state[0]=icao24, state[1]=callsign, state[2]=origin country, state[5]=longitude,
state[6]=latitude, state[7]=altitude (m), state[8]=on-ground flag,
state[9]=velocity (m/s), state[10]=heading (deg). A missing (null/undefined)
field is none.
-/

structure RawState where
  icao24 : Option String
  callsign : Option String
  originCountry : Option String
  longitude : Option Rat
  latitude : Option Rat
  altitude : Option Rat
  onGround : Bool
  velocity : Option Rat
  heading : Option Rat
  deriving DecidableEq

/-- The normalized Flight record of FlightTracker.tsx (all display fields are
strings, as in the TS interface). -/
structure Flight where
  id : String
  callsign : String
  country : String
  longitude : String
  latitude : String
  altitude : String
  velocity : String
  heading : String
  onGround : Bool
  deriving DecidableEq

/-- JS toFixed(4) on a rational: round the scaled value half toward positive
infinity and print with exactly four decimal places. -/
def ratToFixed4 (q : Rat) : String :=
  let n : Int := Int.floor (q * 10000 + 1/2)
  let a : Nat := n.natAbs
  let fracDigits := natStr (a % 10000)
  let padded := String.mk (List.replicate (4 - fracDigits.length) '0') ++ fracDigits
  (if n < 0 then "-" else "") ++ natStr (a / 10000) ++ "." ++ padded

/-- Normalization of one raw state record at a given array index, transcribing
the mapping inside fetchFlights:
`id: state[0] || flight-index, callsign: state[1]?.trim() || 'N/A',
country: state[2] || 'Unknown', longitude/latitude: state[5/6]?.toFixed(4) || 'N/A',
altitude: state[7] ? round + " m" : 'N/A', velocity: state[9] ? round(*3.6) + " km/h" : 'N/A',
heading: state[10] ? round + degree suffix : 'N/A', onGround: state[8]`.
JS truthiness: a number field is falsy when missing or 0; a string field is
falsy when missing or empty. The degree suffix is the two characters the
source file literally contains. -/
def formatFlight (s : RawState) (index : Nat) : Flight :=
  { id := match s.icao24 with
      | some v => if v = "" then "flight-" ++ natStr index else v
      | none => "flight-" ++ natStr index
    callsign := match s.callsign with
      | some v => if v.trim = "" then "N/A" else v.trim
      | none => "N/A"
    country := match s.originCountry with
      | some v => if v = "" then "Unknown" else v
      | none => "Unknown"
    longitude := match s.longitude with
      | some q => ratToFixed4 q
      | none => "N/A"
    latitude := match s.latitude with
      | some q => ratToFixed4 q
      | none => "N/A"
    altitude := match s.altitude with
      | some q => if q = 0 then "N/A" else intStr (jsRound q) ++ " m"
      | none => "N/A"
    velocity := match s.velocity with
      | some q => if q = 0 then "N/A" else intStr (jsRound (q * (18/5))) ++ " km/h"
      | none => "N/A"
    heading := match s.heading with
      | some q => if q = 0 then "N/A" else intStr (jsRound q) ++ "Â°"
      | none => "N/A"
    onGround := s.onGround }

/-- The whole normalization pipeline of fetchFlights: map each state with its
index, then filter out grounded aircraft. -/
def formatFlights (states : List RawState) : List Flight :=
  (states.mapIdx fun i s => formatFlight s i).filter fun fl => !fl.onGround

/-! ## Bounding box (Flight Fetcher) -/

/-- The four bounding-box coordinates computed in fetchFlights. -/
structure BBox where
  latMin : Rat
  latMax : Rat
  lonMin : Rat
  lonMax : Rat
  deriving DecidableEq

/-- Bounding box from a center coordinate and radius, transcribing
`latMin = lat - radius; latMax = lat + radius; lonMin = lon - radius;
lonMax = lon + radius`. -/
def boundingBox (lat lon radius : Rat) : BBox :=
  { latMin := lat - radius
    latMax := lat + radius
    lonMin := lon - radius
    lonMax := lon + radius }

/-! ## Location Resolver (searchAirport) -/

/-- One geocoding result as the code reads it: string-encoded coordinates are
abstracted to ℚ (the code applies parseFloat to the provider's decimal
strings), plus the comma-delimited display name. -/
structure GeoResult where
  lat : Rat
  lon : Rat
  displayName : String
  deriving DecidableEq

/-- Outcome of one geocoding fetch: the transport threw, the response was
non-success (ok false), or a JSON array of results came back. -/
inductive GeoOutcome where
  | threw : GeoOutcome
  | notOk : GeoOutcome
  | ok : List GeoResult → GeoOutcome
  deriving DecidableEq

/-- The value searchAirport resolves to. -/
structure LocationInfo where
  lat : Rat
  lon : Rat
  name : String
  code : String
  deriving DecidableEq

/-- First comma-delimited segment of a display name:
`display_name.split(',')[0]`. -/
def firstSegment (s : String) : String := (s.splitOn ",").headD ""

/-- The query used for the first, airport-targeted lookup: the raw query with
" airport" appended before URL encoding. -/
def airportQuery (q : String) : String := q ++ " airport"

/-- The location built from the first element of a non-empty geocoding
response: its coordinates, the first comma-delimited segment of its display
name, and the upper-cased query as the code. -/
def locOfResult (r : GeoResult) (query : String) : LocationInfo :=
  { lat := r.lat, lon := r.lon, name := firstSegment r.displayName, code := query.toUpper }

/-- Second, bare-query lookup: only a non-empty ok response yields a location;
a thrown transport error is caught by the surrounding try (none), and a
non-success or empty response falls through to `return null`. -/
def cityLookup (o : GeoOutcome) (query : String) : Option LocationInfo :=
  match o with
  | GeoOutcome.ok (r :: _) => some (locOfResult r query)
  | _ => none

/-- The Location Resolver. The environment `geo` maps a query string to the
outcome of the geocoding fetch for that query. The first lookup uses the
airport-suffixed query; only when it is non-success or empty does the bare
query run; a throw anywhere is caught and resolves to none ("not found"). -/
def searchAirport (query : String) (geo : String → GeoOutcome) : Option LocationInfo :=
  match geo (airportQuery query) with
  | GeoOutcome.threw => none
  | GeoOutcome.ok (r :: _) => some (locOfResult r query)
  | GeoOutcome.ok [] => cityLookup (geo query) query
  | GeoOutcome.notOk => cityLookup (geo query) query

/-! ## Flight Fetcher outcome model (fetchFlights) -/

/-- Outcome of the flight-state fetch: the transport threw (carrying the JS
error's message), the response was non-success, or a JSON document whose
`states` field is absent (none) or a list. -/
inductive ApiOutcome where
  | threw : String → ApiOutcome
  | notOk : ApiOutcome
  | ok : Option (List RawState) → ApiOutcome
  deriving DecidableEq

/-- The user-visible message when the location cannot be resolved. -/
def locNotFoundMsg (searchTerm : String) : String :=
  "Could not find location \"" ++ searchTerm ++
    "\". Try using an airport code (e.g., JFK, LHR, BOM, CDG) or city name (e.g., New York, London, Mumbai)."

/-- The rate-limit/availability message thrown on a non-success response. -/
def rateLimitMsg : String :=
  "Failed to fetch flight data. The API might be rate-limited. Try again in a few moments."

/-- The empty-result message, parameterized by the resolved location name. -/
def noFlightsMsg (name : String) : String :=
  "No flights currently detected near " ++ name ++
    ". This could mean there are no aircraft in the area right now, or try increasing the search radius."

/-- The fallback text when a caught error has an empty message. -/
def genericErrMsg : String := "An error occurred while fetching flight data."

/-- The catch clause: `(err as Error).message || '...'` (an empty message is
falsy). -/
def caughtMsg (msg : String) : String := if msg = "" then genericErrMsg else msg

/-- The UI state fetchFlights leaves behind: the loading flag, the single
error-message string, the flight list, and the searched location/coords. -/
structure TrackerState where
  loading : Bool
  error : String
  flights : List Flight
  searchedLocation : Option String
  currentCoords : Option (Rat × Rat)
  deriving DecidableEq

/-- The fetchFlights action as a function of its two effectful inputs (the
resolved location and the flight-state fetch outcome), returning the final
UI state together with the bounding box of the request it issued (none when
no request was made). Each branch transcribes the corresponding early return,
throw or success path; the finally clause makes loading false on every path. -/
def fetchFlights (searchTerm : String) (searchRadius : Rat)
    (loc : Option LocationInfo) (api : ApiOutcome) : TrackerState × Option BBox :=
  match loc with
  | none =>
    ({ loading := false, error := locNotFoundMsg searchTerm, flights := [],
       searchedLocation := none, currentCoords := none }, none)
  | some li =>
    let bb := boundingBox li.lat li.lon searchRadius
    match api with
    | ApiOutcome.threw msg =>
      ({ loading := false, error := caughtMsg msg, flights := [],
         searchedLocation := some li.name, currentCoords := some (li.lat, li.lon) }, some bb)
    | ApiOutcome.notOk =>
      ({ loading := false, error := caughtMsg rateLimitMsg, flights := [],
         searchedLocation := some li.name, currentCoords := some (li.lat, li.lon) }, some bb)
    | ApiOutcome.ok none =>
      ({ loading := false, error := noFlightsMsg li.name, flights := [],
         searchedLocation := some li.name, currentCoords := some (li.lat, li.lon) }, some bb)
    | ApiOutcome.ok (some []) =>
      ({ loading := false, error := noFlightsMsg li.name, flights := [],
         searchedLocation := some li.name, currentCoords := some (li.lat, li.lon) }, some bb)
    | ApiOutcome.ok (some (s :: rest)) =>
      ({ loading := false, error := "", flights := formatFlights (s :: rest),
         searchedLocation := some li.name, currentCoords := some (li.lat, li.lon) }, some bb)

/-! ## List-to-map conversion (the FlightMap props) -/

/-- The flight shape passed to FlightMap: numeric longitude/latitude obtained
by parseFloat (none = NaN) and a heading guarded by `|| 0`, which is therefore
always a number. -/
structure MapFlightProps where
  id : String
  callsign : String
  country : String
  longitude : Option Rat
  latitude : Option Rat
  altitude : String
  velocity : String
  heading : Rat
  deriving DecidableEq

/-- The conversion in the JSX: spread of the normalized flight with
`longitude: parseFloat(f.longitude), latitude: parseFloat(f.latitude),
heading: parseFloat(f.heading) || 0`. -/
def toMapFlight (f : Flight) : MapFlightProps :=
  { id := f.id
    callsign := f.callsign
    country := f.country
    longitude := jsParseFloat f.longitude
    latitude := jsParseFloat f.latitude
    altitude := f.altitude
    velocity := f.velocity
    heading := jsOrZero (jsParseFloat f.heading) }

/-! ## Map Reconciler (FlightMap.tsx, updateMapFlights)

The flights prop of FlightMap declares numeric latitude/longitude/heading;
positions are `[latitude, longitude]` pairs. IEEE NaN is outside this model
(positions are rationals).
-/

/-- A position as stored in a track: `[latitude, longitude]`. -/
abbrev Pos := Rat × Rat

/-- One element of the FlightMap flights prop. -/
structure MapFlight where
  id : String
  callsign : String
  country : String
  longitude : Rat
  latitude : Rat
  altitude : String
  velocity : String
  heading : Rat
  deriving DecidableEq

/-- The `currentPos` computed for a flight: `[flight.latitude, flight.longitude]`. -/
def posOf (f : MapFlight) : Pos := (f.latitude, f.longitude)

/-- The per-identifier registry value (interface FlightMarkerData): the
marker (modelled by its position and the heading baked into its icon), the
optional path overlay (modelled by its point sequence), and the track. The
popup text bound at creation is display-only and not modelled. -/
structure FlightMarkerData where
  markerPos : Pos
  markerHeading : Rat
  polyline : Option (List Pos)
  track : List Pos
  deriving DecidableEq

/-- The flightMarkersRef registry, as a partial map from identifier to
FlightMarkerData; a marker (and its overlay) is on the map exactly when its
identifier is in the domain. -/
def MarkerMap := String → Option FlightMarkerData

/-- The append guard `track.length === 0 || (track[track.length-1][0] !==
currentPos[0] || track[track.length-1][1] !== currentPos[1])`: an empty track
has no last element (getLast? none) and always appends; otherwise the last
point is compared componentwise. -/
def shouldAppend (track : List Pos) (pos : Pos) : Bool :=
  match track.getLast? with
  | none => true
  | some p => decide (p.1 ≠ pos.1) || decide (p.2 ≠ pos.2)

/-- Processing one flight against its (possibly absent) registry entry:
the update branch moves the marker, re-renders the icon at the new heading,
conditionally appends to the track, and updates or creates the polyline
(created only when the track has more than one point); the create branch
makes a fresh marker with a single-point track and no polyline. -/
def stepEntry (o : Option FlightMarkerData) (f : MapFlight) : FlightMarkerData :=
  let pos := posOf f
  match o with
  | some d =>
    let track2 := if shouldAppend d.track pos then d.track ++ [pos] else d.track
    let poly2 : Option (List Pos) :=
      match d.polyline with
      | some _ => some track2
      | none => if track2.length > 1 then some track2 else none
    { markerPos := pos, markerHeading := f.heading, polyline := poly2, track := track2 }
  | none =>
    { markerPos := pos, markerHeading := f.heading, polyline := none, track := [pos] }

/-- The body of the flights.forEach loop: mutates the registry at the
flight's identifier. -/
def updateOne (m : MarkerMap) (f : MapFlight) : MarkerMap :=
  fun id => if id = f.id then some (stepEntry (m f.id) f) else m id

/-- The eviction loop: every existing identifier absent from
`currentFlightIds = new Set(flights.map(f => f.id))` has its marker and
polyline removed from the map and is deleted from the registry. -/
def evictAbsent (m : MarkerMap) (flights : List MapFlight) : MarkerMap :=
  fun id => if id ∈ flights.map MapFlight.id then m id else none

/-- One reconciliation pass of updateMapFlights: evict stale identifiers,
then process each flight of the new array in order. -/
def updateMapFlights (m : MarkerMap) (flights : List MapFlight) : MarkerMap :=
  flights.foldl updateOne (evictAbsent m flights)

/-! ### Reconciler lemmas -/

/-- Processing a flight always leaves an entry. -/
def stepAt (o : Option FlightMarkerData) (f : MapFlight) : Option FlightMarkerData :=
  some (stepEntry o f)

theorem updateOne_lookup_ne (m : MarkerMap) (f : MapFlight) (id : String)
    (h : id ≠ f.id) : updateOne m f id = m id := by
  simp [updateOne, h]

/-- The registry after the forEach loop, projected at one identifier, equals
the fold of stepEntry over just the flights carrying that identifier. -/
theorem foldl_updateOne_lookup (fs : List MapFlight) (m : MarkerMap) (id : String) :
    (fs.foldl updateOne m) id = ((fs.filter fun f => f.id = id).foldl stepAt (m id)) := by
  induction fs generalizing m with
  | nil => rfl
  | cons f fs ih =>
    by_cases h : f.id = id
    · have hfil : ((f :: fs).filter fun g => g.id = id) = f :: (fs.filter fun g => g.id = id) := by
        simp [List.filter_cons, h]
      have hup : (updateOne m f) id = stepAt (m id) f := by
        simp [updateOne, h, stepAt]
      rw [List.foldl_cons, ih (updateOne m f), hup, hfil, List.foldl_cons]
    · have hfil : ((f :: fs).filter fun g => g.id = id) = fs.filter fun g => g.id = id := by
        simp [List.filter_cons, h]
      rw [List.foldl_cons, ih (updateOne m f), updateOne_lookup_ne m f id (fun he => h he.symm),
        hfil]

/-- Pointwise characterization of one reconciliation pass. -/
theorem updateMapFlights_lookup (m : MarkerMap) (flights : List MapFlight) (id : String) :
    updateMapFlights m flights id =
      ((flights.filter fun f => f.id = id).foldl stepAt (evictAbsent m flights id)) :=
  foldl_updateOne_lookup flights (evictAbsent m flights) id

theorem filter_id_eq_nil (flights : List MapFlight) (id : String)
    (h : id ∉ flights.map MapFlight.id) :
    (flights.filter fun f => f.id = id) = [] := by
  induction flights with
  | nil => rfl
  | cons f fs ih =>
    have h1 : f.id ≠ id := by
      intro he
      exact h (by simp [he])
    have h2 : id ∉ fs.map MapFlight.id := by
      intro hm
      exact h (by simp [hm])
    simp [List.filter_cons, h1, ih h2]

theorem foldl_stepAt_isSome_of_some (fs : List MapFlight) (e : FlightMarkerData) :
    (fs.foldl stepAt (some e)).isSome = true := by
  induction fs generalizing e with
  | nil => rfl
  | cons f fs ih => exact ih (stepEntry (some e) f)

theorem foldl_stepAt_isSome (fs : List MapFlight) (o : Option FlightMarkerData)
    (h : fs ≠ []) : (fs.foldl stepAt o).isSome = true := by
  cases fs with
  | nil => exact absurd rfl h
  | cons f fs => exact foldl_stepAt_isSome_of_some fs (stepEntry o f)

theorem filter_id_ne_nil (flights : List MapFlight) (id : String)
    (h : id ∈ flights.map MapFlight.id) :
    (flights.filter fun f => f.id = id) ≠ [] := by
  obtain ⟨f, hf, hid⟩ := List.mem_map.mp h
  intro hnil
  have : f ∈ flights.filter fun g => g.id = id := by
    rw [List.mem_filter]
    exact ⟨hf, by simp [hid]⟩
  rw [hnil] at this
  exact absurd this (List.not_mem_nil f)

theorem shouldAppend_iff (track : List Pos) (pos : Pos) :
    shouldAppend track pos = true ↔ track.getLast? ≠ some pos := by
  cases h : track.getLast? with
  | none => simp [shouldAppend, h]
  | some p =>
    simp only [shouldAppend, h, Bool.or_eq_true, decide_eq_true_eq, ne_eq,
      Option.some.injEq]
    constructor
    · rintro (h1 | h2) he
      · exact h1 (by rw [he])
      · exact h2 (by rw [he])
    · intro hne
      by_cases h1 : p.1 = pos.1
      · by_cases h2 : p.2 = pos.2
        · exact absurd (Prod.ext h1 h2) hne
        · exact Or.inr h2
      · exact Or.inl h1

/-- The polyline/track invariant that every reachable registry satisfies:
an overlay exists only over a track of at least two points. -/
def PolyInv (o : Option FlightMarkerData) : Prop :=
  ∀ e, o = some e → e.polyline ≠ none → 2 ≤ e.track.length

/-- After processing a flight, the overlay exists if and only if the track
has at least two points (given the invariant on the previous entry). -/
theorem stepEntry_poly_iff (o : Option FlightMarkerData) (f : MapFlight)
    (h : PolyInv o) :
    ((stepEntry o f).polyline ≠ none ↔ 2 ≤ (stepEntry o f).track.length) := by
  cases o with
  | none => simp [stepEntry]
  | some d =>
    have hlen : d.track.length ≤ (if shouldAppend d.track (posOf f)
        then d.track ++ [posOf f] else d.track).length := by
      by_cases hs : shouldAppend d.track (posOf f) = true <;> simp [hs]
    cases hp : d.polyline with
    | some p =>
      have h2 : 2 ≤ d.track.length := h d rfl (by simp [hp])
      simp only [stepEntry, hp]
      constructor
      · intro _
        omega
      · intro _
        simp
    | none =>
      simp only [stepEntry, hp]
      by_cases hgt : (if shouldAppend d.track (posOf f)
          then d.track ++ [posOf f] else d.track).length > 1
      · simp only [hgt, if_pos]
        constructor
        · intro _
          omega
        · intro _
          simp
      · simp only [hgt, if_neg, not_false_iff]
        constructor
        · intro hc
          exact absurd rfl hc
        · intro hc
          omega

theorem stepAt_polyInv (o : Option FlightMarkerData) (f : MapFlight)
    (h : PolyInv o) : PolyInv (stepAt o f) := by
  intro e he hp
  have : e = stepEntry o f := by
    simpa [stepAt] using he.symm
  rw [this] at hp ⊢
  exact ((stepEntry_poly_iff o f h).mp hp)

/-- Fold form of the invariant: after at least one step, the iff holds. -/
theorem foldl_stepAt_poly_iff (fs : List MapFlight) (o : Option FlightMarkerData)
    (hinv : PolyInv o) (hne : fs ≠ []) :
    ∀ e, fs.foldl stepAt o = some e → (e.polyline ≠ none ↔ 2 ≤ e.track.length) := by
  induction fs generalizing o with
  | nil => exact absurd rfl hne
  | cons f fs ih =>
    intro e he
    cases fs with
    | nil =>
      have : e = stepEntry o f := by
        simpa [stepAt] using he.symm
      rw [this]
      exact stepEntry_poly_iff o f hinv
    | cons g gs =>
      exact ih (stepAt o f) (stepAt_polyInv o f hinv) (by simp) e he

theorem filter_eq_singleton_of_count_one (flights : List MapFlight) (f : MapFlight)
    (hmem : f ∈ flights) (hone : (flights.map MapFlight.id).count f.id = 1) :
    (flights.filter fun g => g.id = f.id) = [f] := by
  induction flights with
  | nil => exact absurd hmem (List.not_mem_nil f)
  | cons g rest ih =>
    rw [List.map_cons, List.count_cons] at hone
    by_cases hg : g.id = f.id
    · have hone' : (rest.map MapFlight.id).count f.id = 0 := by
        simp [hg] at hone
        omega
      have hnof : ∀ x ∈ rest, x.id ≠ f.id := by
        intro x hx he
        have : f.id ∈ rest.map MapFlight.id := he ▸ List.mem_map_of_mem MapFlight.id hx
        rw [List.count_eq_zero] at hone'
        exact hone' this
      have hfg : f = g := by
        rcases List.mem_cons.mp hmem with h | h
        · exact h
        · exact absurd rfl (hnof f h)
      have hrest : (rest.filter fun x => x.id = f.id) = [] := by
        rw [List.filter_eq_nil_iff]
        intro x hx
        simp [hnof x hx]
      simp [List.filter_cons, hg, hrest, hfg]
    · have hne : f ≠ g := by
        intro he
        exact hg (he ▸ rfl)
      have hmem' : f ∈ rest := by
        rcases List.mem_cons.mp hmem with h | h
        · exact absurd h hne
        · exact h
      have hone' : (rest.map MapFlight.id).count f.id = 1 := by
        simpa [hg] using hone
      simp [List.filter_cons, hg, ih hmem' hone']

/-- Shared eviction fact: an identifier absent from the new array has no
entry after the pass. -/
theorem lookup_none_of_not_mem (m : MarkerMap) (flights : List MapFlight)
    (id : String) (h : id ∉ flights.map MapFlight.id) :
    updateMapFlights m flights id = none := by
  rw [updateMapFlights_lookup, filter_id_eq_nil flights id h, List.foldl_nil]
  simp [evictAbsent, h]

/-! ## Concrete fixtures used by witnesses and counterexamples -/

/-- A concrete airborne flight for the map. -/
def mapFlightA : MapFlight :=
  { id := "abc123", callsign := "JET1", country := "India", longitude := 78,
    latitude := 13, altitude := "11000 m", velocity := "850 km/h", heading := 90 }

/-- A registry entry with a one-point track and no overlay. -/
def markerStale : FlightMarkerData :=
  { markerPos := (12, 77), markerHeading := 45, polyline := none, track := [(12, 77)] }

/-- A registry holding only the identifier "staleId". -/
def markerMapStale : MarkerMap :=
  fun id => if id = "staleId" then some markerStale else none

/-- The empty registry, as when the map view is created. -/
def markerMapEmpty : MarkerMap := fun _ => none

/-- An entry at identifier "dup" with a one-point track at the origin. -/
def markerTrackOne : FlightMarkerData :=
  { markerPos := (0, 0), markerHeading := 0, polyline := none, track := [(0, 0)] }

/-- A registry holding only the identifier "dup". -/
def markerMapDup : MarkerMap :=
  fun id => if id = "dup" then some markerTrackOne else none

/-- A flight with identifier "dup" at position (1, 1). -/
def dupFlight1 : MapFlight :=
  { id := "dup", callsign := "A1", country := "X", longitude := 1, latitude := 1,
    altitude := "1 m", velocity := "1 km/h", heading := 0 }

/-- A second flight with the same identifier "dup" at position (2, 2). -/
def dupFlight2 : MapFlight :=
  { id := "dup", callsign := "A2", country := "X", longitude := 2, latitude := 2,
    altitude := "2 m", velocity := "2 km/h", heading := 0 }

/-! ## Claim theorems -/

/-- C1: in every reconciliation pass of updateMapFlights on a new Flight
array, every TrackedMarker whose identifier is absent from the identifiers of
the new array is deleted from the identifier-to-marker mapping, which in this
model is exactly the removal of its marker and of its path overlay (if any)
from the map; no stale marker remains after the pass. -/
theorem C1_eviction (m : MarkerMap) (flights : List MapFlight) (id : String)
    (h : id ∉ flights.map MapFlight.id) :
    updateMapFlights m flights id = none :=
  lookup_none_of_not_mem m flights id h

theorem C1_eviction_witness :
    "staleId" ∉ [mapFlightA].map MapFlight.id ∧
      updateMapFlights markerMapStale [mapFlightA] "staleId" = none :=
  ⟨by decide, C1_eviction markerMapStale [mapFlightA] "staleId" (by decide)⟩

/-- C9: after a reconciliation pass, the key set of the marker mapping equals
exactly the set of identifiers occurring in the new array: an identifier has
an entry if and only if some flight in the array carries it. -/
theorem C9_domain (m : MarkerMap) (flights : List MapFlight) (id : String) :
    (updateMapFlights m flights id).isSome = true ↔ id ∈ flights.map MapFlight.id := by
  constructor
  · intro h
    by_contra hmem
    rw [lookup_none_of_not_mem m flights id hmem] at h
    simp at h
  · intro hmem
    rw [updateMapFlights_lookup]
    exact foldl_stepAt_isSome _ _ (filter_id_ne_nil flights id hmem)

/-- C3: after a reconciliation pass starting from any registry satisfying the
reachable-state invariant (an overlay only ever exists over a track of at
least two points; the empty initial registry satisfies it vacuously), every
surviving entry has a non-null path overlay if and only if its track has at
least two points. In particular a newly created entry (one-point track) has
no overlay, and an overlay is created exactly when a track reaches two
points. -/
theorem C3_polyline_iff (m : MarkerMap) (flights : List MapFlight)
    (hm : ∀ id e, m id = some e → e.polyline ≠ none → 2 ≤ e.track.length)
    (id : String) (e : FlightMarkerData)
    (he : updateMapFlights m flights id = some e) :
    (e.polyline ≠ none ↔ 2 ≤ e.track.length) := by
  rw [updateMapFlights_lookup] at he
  by_cases hmem : id ∈ flights.map MapFlight.id
  · have hinv : PolyInv (evictAbsent m flights id) := by
      intro e' he' hp
      unfold evictAbsent at he'
      rw [if_pos hmem] at he'
      exact hm id e' he' hp
    exact foldl_stepAt_poly_iff _ _ hinv (filter_id_ne_nil flights id hmem) e he
  · rw [filter_id_eq_nil flights id hmem, List.foldl_nil] at he
    unfold evictAbsent at he
    rw [if_neg hmem] at he
    exact Option.noConfusion he

/-- The entry created for mapFlightA from the empty registry. -/
def markerCreatedA : FlightMarkerData :=
  { markerPos := (13, 78), markerHeading := 90, polyline := none,
    track := [(13, 78)] }

theorem C3_polyline_iff_witness :
    updateMapFlights markerMapEmpty [mapFlightA] "abc123" = some markerCreatedA ∧
      (markerCreatedA.polyline ≠ none ↔ 2 ≤ markerCreatedA.track.length) :=
  ⟨by decide,
    C3_polyline_iff markerMapEmpty [mapFlightA]
      (by intro id e h hp; simp [markerMapEmpty] at h) "abc123" markerCreatedA (by decide)⟩

/-- C2 fails as stated: when the same identifier occurs twice in the new
array (which the normalization permits), one pass appends two points, so the
track length grows by two, not by at most one. Before the pass the track at
"dup" has length 1; after one pass it has length 3. -/
theorem C2_counterexample :
    Option.map (fun e => e.track.length)
        (updateMapFlights markerMapDup [dupFlight1, dupFlight2] "dup") = some 3 ∧
      Option.map (fun e => e.track.length) (markerMapDup "dup") = some 1 := by
  decide

/-- C2 amended: for an identifier present in the mapping before the pass and
occurring exactly once in the new array, the pass leaves the track unchanged
or appends exactly the new position (so the length grows by zero or one), the
append happens if and only if the new position differs from the last recorded
track point, and a second pass with the same array leaves the track equal to
the track after the first pass. -/
theorem C2_track_growth (m : MarkerMap) (flights : List MapFlight)
    (f : MapFlight) (d : FlightMarkerData)
    (hmem : f ∈ flights)
    (hone : (flights.map MapFlight.id).count f.id = 1)
    (hd : m f.id = some d) :
    ∃ e, updateMapFlights m flights f.id = some e ∧
      (e.track = d.track ++ [posOf f] ∨ e.track = d.track) ∧
      (e.track = d.track ++ [posOf f] ↔ d.track.getLast? ≠ some (posOf f)) ∧
      (e.track.length = d.track.length ∨ e.track.length = d.track.length + 1) ∧
      Option.map FlightMarkerData.track
          (updateMapFlights (updateMapFlights m flights) flights f.id) = some e.track := by
  have hmemid : f.id ∈ flights.map MapFlight.id := List.mem_map_of_mem MapFlight.id hmem
  have hfil := filter_eq_singleton_of_count_one flights f hmem hone
  have hev : evictAbsent m flights f.id = some d := by
    unfold evictAbsent
    rw [if_pos hmemid, hd]
  have hlook : updateMapFlights m flights f.id = some (stepEntry (some d) f) := by
    rw [updateMapFlights_lookup, hfil, hev]
    rfl
  refine ⟨stepEntry (some d) f, hlook, ?_⟩
  have htrack : (stepEntry (some d) f).track =
      if shouldAppend d.track (posOf f) then d.track ++ [posOf f] else d.track := rfl
  have hlast : (stepEntry (some d) f).track.getLast? = some (posOf f) := by
    by_cases hs : shouldAppend d.track (posOf f) = true
    · rw [htrack, if_pos hs, List.getLast?_concat]
    · rw [htrack, if_neg hs]
      by_contra hne
      exact hs ((shouldAppend_iff d.track (posOf f)).mpr hne)
  have hsecond : updateMapFlights (updateMapFlights m flights) flights f.id =
      some (stepEntry (some (stepEntry (some d) f)) f) := by
    rw [updateMapFlights_lookup, hfil]
    have hev2 : evictAbsent (updateMapFlights m flights) flights f.id =
        some (stepEntry (some d) f) := by
      unfold evictAbsent
      rw [if_pos hmemid, hlook]
    rw [hev2]
    rfl
  have hnoapp : ¬ shouldAppend (stepEntry (some d) f).track (posOf f) = true := by
    intro hs2
    exact absurd hlast ((shouldAppend_iff _ _).mp hs2)
  have hstep2 : (stepEntry (some (stepEntry (some d) f)) f).track = (stepEntry (some d) f).track := by
    have : (stepEntry (some (stepEntry (some d) f)) f).track =
        if shouldAppend (stepEntry (some d) f).track (posOf f)
        then (stepEntry (some d) f).track ++ [posOf f]
        else (stepEntry (some d) f).track := rfl
    rw [this, if_neg hnoapp]
  by_cases hs : shouldAppend d.track (posOf f) = true
  · have htr : (stepEntry (some d) f).track = d.track ++ [posOf f] := by
      rw [htrack, if_pos hs]
    refine ⟨Or.inl htr, ?_, ?_, ?_⟩
    · constructor
      · intro _
        exact (shouldAppend_iff d.track (posOf f)).mp hs
      · intro _
        exact htr
    · right
      rw [htr]
      simp
    · rw [hsecond, Option.map_some', hstep2]
  · have htr : (stepEntry (some d) f).track = d.track := by
      rw [htrack, if_neg hs]
    refine ⟨Or.inr htr, ?_, ?_, ?_⟩
    · constructor
      · intro happ
        rw [htr] at happ
        exact absurd happ.symm (by simp)
      · intro hne
        exact absurd ((shouldAppend_iff d.track (posOf f)).mpr hne) hs
    · left
      rw [htr]
    · rw [hsecond, Option.map_some', hstep2]

theorem C2_track_growth_witness :
    dupFlight1 ∈ [dupFlight1] ∧
    ([dupFlight1].map MapFlight.id).count dupFlight1.id = 1 ∧
    markerMapDup dupFlight1.id = some markerTrackOne ∧
    (∃ e, updateMapFlights markerMapDup [dupFlight1] dupFlight1.id = some e ∧
      (e.track = markerTrackOne.track ++ [posOf dupFlight1] ∨
        e.track = markerTrackOne.track) ∧
      (e.track = markerTrackOne.track ++ [posOf dupFlight1] ↔
        markerTrackOne.track.getLast? ≠ some (posOf dupFlight1)) ∧
      (e.track.length = markerTrackOne.track.length ∨
        e.track.length = markerTrackOne.track.length + 1) ∧
      Option.map FlightMarkerData.track
          (updateMapFlights (updateMapFlights markerMapDup [dupFlight1]) [dupFlight1]
            dupFlight1.id) = some e.track) :=
  ⟨by decide, by decide, rfl,
    C2_track_growth markerMapDup [dupFlight1] dupFlight1 markerTrackOne
      (by decide) (by decide) rfl⟩

/-- Rounding an integer-valued rational is the identity. -/
theorem jsRound_intCast (n : Int) : jsRound ((n : Int) : Rat) = n := by
  unfold jsRound
  rw [Int.floor_eq_iff]
  refine ⟨by linarith, by linarith⟩

/-- The `parseFloat(x) || 0` guard is the identity on parsed values
(0 maps to 0). -/
theorem jsOrZero_some (v : Rat) : jsOrZero (some v) = v := by
  by_cases hv : v = 0
  · simp [jsOrZero, hv]
  · simp [jsOrZero, hv]

/-- A raw state whose altitude is present and equal to 0 — JS renders it
"N/A" because 0 is falsy. -/
def rawZeroAlt : RawState :=
  { icao24 := some "zero1", callsign := some "ZRO", originCountry := some "India",
    longitude := some 77, latitude := some 12, altitude := some 0, onGround := false,
    velocity := some 100, heading := some 90 }

/-- A raw airborne state with velocity 100 m/s. -/
def rawV100 : RawState :=
  { icao24 := some "v100", callsign := some "JET2", originCountry := some "India",
    longitude := some 77, latitude := some 12, altitude := some 10668, onGround := false,
    velocity := some 100, heading := some 271 }

/-- A raw state with the on-ground flag set. -/
def rawGrounded : RawState :=
  { icao24 := some "gnd1", callsign := some "GND", originCountry := some "India",
    longitude := some 77, latitude := some 12, altitude := some 5, onGround := true,
    velocity := some 3, heading := some 7 }

/-- C4 fails as stated: an altitude that is present but equal to 0 is falsy in
JS, so the ternary renders "N/A" instead of the claimed "0 m" (round(0) with
the meter suffix). -/
theorem C4_counterexample :
    rawZeroAlt.altitude = some 0 ∧
    (formatFlight rawZeroAlt 0).altitude = "N/A" ∧
    (formatFlight rawZeroAlt 0).altitude ≠ intStr (jsRound 0) ++ " m" := by
  refine ⟨rfl, ?_, ?_⟩
  · simp [formatFlight, rawZeroAlt]
  · have h0 : jsRound 0 = 0 := by
      unfold jsRound
      rw [Int.floor_eq_iff]
      norm_num
    rw [h0]
    simp only [formatFlight, rawZeroAlt]
    decide

/-- C4 amended: a present and nonzero altitude a is displayed as round(a)
with the meter suffix, a present and nonzero velocity v (m/s) as
round(v × 3.6) with the km/h suffix, a present and nonzero heading as its
rounding with the degree suffix, and a missing or zero numeric field is
displayed as "N/A" (JS truthiness makes 0 falsy) rather than causing a
failure. -/
theorem C4_display (s : RawState) (i : Nat) :
    (∀ a, s.altitude = some a → a ≠ 0 →
      (formatFlight s i).altitude = intStr (jsRound a) ++ " m") ∧
    ((s.altitude = none ∨ s.altitude = some 0) → (formatFlight s i).altitude = "N/A") ∧
    (∀ v, s.velocity = some v → v ≠ 0 →
      (formatFlight s i).velocity = intStr (jsRound (v * (18/5))) ++ " km/h") ∧
    ((s.velocity = none ∨ s.velocity = some 0) → (formatFlight s i).velocity = "N/A") ∧
    (∀ h, s.heading = some h → h ≠ 0 →
      (formatFlight s i).heading = intStr (jsRound h) ++ "Â°") ∧
    ((s.heading = none ∨ s.heading = some 0) → (formatFlight s i).heading = "N/A") := by
  refine ⟨?_, ?_, ?_, ?_, ?_, ?_⟩
  · intro a ha hz
    simp [formatFlight, ha, hz]
  · rintro (h | h) <;> simp [formatFlight, h]
  · intro v hv hz
    simp [formatFlight, hv, hz]
  · rintro (h | h) <;> simp [formatFlight, h]
  · intro hd hh hz
    simp [formatFlight, hh, hz]
  · rintro (h | h) <;> simp [formatFlight, h]

theorem C4_display_witness :
    rawV100.velocity = some 100 ∧ (100 : Rat) ≠ 0 ∧
    (formatFlight rawV100 0).velocity = intStr (jsRound ((100 : Rat) * (18/5))) ++ " km/h" ∧
    intStr (jsRound ((100 : Rat) * (18/5))) ++ " km/h" = "360 km/h" := by
  refine ⟨rfl, by norm_num, (C4_display rawV100 0).2.2.1 100 rfl (by norm_num), ?_⟩
  have h1 : ((100 : Rat) * (18/5)) = ((360 : Int) : Rat) := by norm_num
  have h2 : jsRound ((100 : Rat) * (18/5)) = 360 := by rw [h1, jsRound_intCast]
  rw [h2]
  decide

/-- C5: for every center coordinate and radius used in a flight fetch, the
bounding box the request is built from satisfies latMin = lat - r,
latMax = lat + r, lonMin = lon - r, lonMax = lon + r. -/
theorem C5_boundingBox (term : String) (radius : Rat) (li : LocationInfo)
    (api : ApiOutcome) :
    (fetchFlights term radius (some li) api).2 = some (boundingBox li.lat li.lon radius) ∧
    (boundingBox li.lat li.lon radius).latMin = li.lat - radius ∧
    (boundingBox li.lat li.lon radius).latMax = li.lat + radius ∧
    (boundingBox li.lat li.lon radius).lonMin = li.lon - radius ∧
    (boundingBox li.lat li.lon radius).lonMax = li.lon + radius := by
  refine ⟨?_, rfl, rfl, rfl, rfl⟩
  cases api with
  | threw msg => rfl
  | notOk => rfl
  | ok o =>
    cases o with
    | none => rfl
    | some l =>
      cases l with
      | nil => rfl
      | cons a as => rfl

/-- C6: every flight in the rendered list is airborne, and the flight built
from a raw record whose on-ground flag is true is excluded from the rendered
list produced by the normalization. -/
theorem C6_grounded_excluded (states : List RawState) :
    (∀ fl ∈ formatFlights states, fl.onGround = false) ∧
    (∀ i, (h : i < states.length) → (states.get ⟨i, h⟩).onGround = true →
      formatFlight (states.get ⟨i, h⟩) i ∉ formatFlights states) := by
  have hall : ∀ fl ∈ formatFlights states, fl.onGround = false := by
    intro fl hfl
    have h2 := (List.mem_filter.mp hfl).2
    simpa using h2
  refine ⟨hall, ?_⟩
  intro i h hg hmem
  have h1 := hall _ hmem
  have h2 : (formatFlight (states.get ⟨i, h⟩) i).onGround = true := hg
  rw [h1] at h2
  exact Bool.noConfusion h2

theorem C6_grounded_excluded_witness :
    rawGrounded.onGround = true ∧
    formatFlight rawGrounded 0 ∉ formatFlights [rawGrounded, rawV100] :=
  ⟨rfl, (C6_grounded_excluded [rawGrounded, rawV100]).2 0 (by decide) rfl⟩

/-- C7: the resolver queries the geocoding service first with " airport"
appended; a non-empty first response resolves immediately to the first
result's coordinates and the first comma-delimited segment of its display
name (independently of the second lookup); an empty or non-success first
response falls back to the bare query; both lookups empty (or non-success,
or throwing) resolve to none — a "not found" outcome — without throwing. -/
theorem C7_resolver (q : String) (geo : String → GeoOutcome) :
    (∀ r rs, geo (airportQuery q) = GeoOutcome.ok (r :: rs) →
      searchAirport q geo = some (locOfResult r q) ∧
      (locOfResult r q).name = firstSegment r.displayName ∧
      (locOfResult r q).lat = r.lat ∧ (locOfResult r q).lon = r.lon) ∧
    ((geo (airportQuery q) = GeoOutcome.ok [] ∨ geo (airportQuery q) = GeoOutcome.notOk) →
      (searchAirport q geo = cityLookup (geo q) q ∧
       (∀ r rs, geo q = GeoOutcome.ok (r :: rs) →
         cityLookup (geo q) q = some (locOfResult r q)) ∧
       (geo q = GeoOutcome.ok [] → searchAirport q geo = none) ∧
       (geo q = GeoOutcome.notOk → searchAirport q geo = none) ∧
       (geo q = GeoOutcome.threw → searchAirport q geo = none))) ∧
    (geo (airportQuery q) = GeoOutcome.threw → searchAirport q geo = none) := by
  refine ⟨?_, ?_, ?_⟩
  · intro r rs h
    refine ⟨?_, rfl, rfl, rfl⟩
    unfold searchAirport
    rw [h]
  · intro h
    have hs : searchAirport q geo = cityLookup (geo q) q := by
      rcases h with h | h
      · unfold searchAirport
        rw [h]
      · unfold searchAirport
        rw [h]
    refine ⟨hs, ?_, ?_, ?_, ?_⟩
    · intro r rs h2
      unfold cityLookup
      rw [h2]
    · intro h2
      rw [hs]
      unfold cityLookup
      rw [h2]
    · intro h2
      rw [hs]
      unfold cityLookup
      rw [h2]
    · intro h2
      rw [hs]
      unfold cityLookup
      rw [h2]
  · intro h
    unfold searchAirport
    rw [h]

/-- The JFK geocoding result used by the resolver witness. -/
def geoResultJFK : GeoResult :=
  { lat := 41, lon := -74,
    displayName := "John F. Kennedy International Airport, Queens, New York, United States" }

/-- A geocoding environment that answers only the airport-suffixed JFK query. -/
def geoEnvJFK : String → GeoOutcome :=
  fun s => if s = "JFK airport" then GeoOutcome.ok [geoResultJFK] else GeoOutcome.ok []

theorem C7_resolver_witness :
    geoEnvJFK (airportQuery "JFK") = GeoOutcome.ok [geoResultJFK] ∧
    searchAirport "JFK" geoEnvJFK = some (locOfResult geoResultJFK "JFK") ∧
    (locOfResult geoResultJFK "JFK").name = firstSegment geoResultJFK.displayName :=
  ⟨by decide, ((C7_resolver "JFK" geoEnvJFK).1 geoResultJFK [] (by decide)).1,
    ((C7_resolver "JFK" geoEnvJFK).1 geoResultJFK [] (by decide)).2.1⟩

/-- The rendered no-flights message always starts with a different character
than the rate-limit message, whatever the location name. -/
theorem noFlights_ne_rateLimit (nm : String) : noFlightsMsg nm ≠ rateLimitMsg := by
  intro h
  have h1 : (noFlightsMsg nm).data.head? = some 'N' := by
    rw [noFlightsMsg, string_data_append, string_data_append]
    rfl
  rw [h] at h1
  exact absurd h1 (by decide)

/-- C8: on every outcome the loading flag ends false (the finally clause); a
non-success transport response yields the rate-limit/availability message; a
successful response with an absent or empty states array (checked before the
on-ground filter) yields the distinct no-aircraft message; and a thrown error
is caught at the action boundary and converted to the single message state
(its own message, or a generic fallback when empty). -/
theorem C8_error_handling (term : String) (radius : Rat)
    (loc : Option LocationInfo) (api : ApiOutcome) :
    (fetchFlights term radius loc api).1.loading = false ∧
    (∀ li, loc = some li → api = ApiOutcome.notOk →
      (fetchFlights term radius loc api).1.error = rateLimitMsg) ∧
    (∀ li, loc = some li → (api = ApiOutcome.ok none ∨ api = ApiOutcome.ok (some [])) →
      (fetchFlights term radius loc api).1.error = noFlightsMsg li.name) ∧
    (∀ nm, noFlightsMsg nm ≠ rateLimitMsg) ∧
    (∀ li msg, loc = some li → api = ApiOutcome.threw msg →
      (fetchFlights term radius loc api).1.error = caughtMsg msg) := by
  refine ⟨?_, ?_, ?_, noFlights_ne_rateLimit, ?_⟩
  · cases loc with
    | none => rfl
    | some li =>
      cases api with
      | threw msg => rfl
      | notOk => rfl
      | ok o =>
        cases o with
        | none => rfl
        | some l =>
          cases l with
          | nil => rfl
          | cons a as => rfl
  · rintro li rfl rfl
    show caughtMsg rateLimitMsg = rateLimitMsg
    unfold caughtMsg
    rw [if_neg (by decide)]
  · rintro li rfl (rfl | rfl) <;> rfl
  · rintro li msg rfl rfl
    rfl

/-- The resolved location used by the error-handling witness. -/
def locBangalore : LocationInfo := { lat := 12, lon := 77, name := "Bangalore", code := "BLR" }

theorem C8_error_handling_witness :
    (fetchFlights "blr" 1 (some locBangalore) ApiOutcome.notOk).1.loading = false ∧
    (fetchFlights "blr" 1 (some locBangalore) ApiOutcome.notOk).1.error = rateLimitMsg ∧
    noFlightsMsg "Bangalore" ≠ rateLimitMsg :=
  ⟨(C8_error_handling "blr" 1 (some locBangalore) ApiOutcome.notOk).1,
   (C8_error_handling "blr" 1 (some locBangalore) ApiOutcome.notOk).2.1 locBangalore rfl rfl,
   (C8_error_handling "blr" 1 (some locBangalore) ApiOutcome.notOk).2.2.2.1 "Bangalore"⟩

/-- C10: the heading passed to the map is always a number: a heading string
that does not parse (the "N/A" sentinel for a missing or zero heading) is
replaced by 0 by the `|| 0` guard (a missing heading points north), and a
formatted numeric heading parses back to its rounded value; NaN (a parse
failure, modelled as none) never reaches the icon renderer. -/
theorem C10_heading_number (s : RawState) (i : Nat) :
    (toMapFlight (formatFlight s i)).heading =
      (match s.heading with
       | none => 0
       | some q => if q = 0 then 0 else ((jsRound q : Int) : Rat)) := by
  have hna : jsParseFloat "N/A" = none := by decide
  cases hh : s.heading with
  | none => simp [toMapFlight, formatFlight, hh, hna, jsOrZero]
  | some q =>
    by_cases hz : q = 0
    · simp [toMapFlight, formatFlight, hh, hz, hna, jsOrZero]
    · have hp : jsParseFloat (intStr (jsRound q) ++ "Â°") = some ((jsRound q : Int) : Rat) :=
        jsParseFloat_intStr_append (jsRound q) "Â°" (by
          intro c hc
          have h1 : ("Â°" : String).data.head? = some 'Â' := rfl
          rw [h1] at hc
          injection hc with h2
          subst h2
          exact ⟨by decide, by decide⟩)
      simp [toMapFlight, formatFlight, hh, hz, hp, jsOrZero_some]

end FlightTracker
